import Mathlib

/-
  Verification development for the PKU-Get authentication core
  (pku_downloader.auth.PKUAuth).  Python strings are modelled as
  List Char; the Selenium driver is modelled as an environment that
  supplies the observable values each step of the login flow reads.
-/

namespace PkuGet

/-! ### Python string primitives modelled over List Char -/

/-- Whitespace characters removed by the Python str.strip method. -/
def isPySpace (c : Char) : Bool :=
  c == ' ' || c == '\t' || c == '\n' || c == '\r' || c == '\x0b' || c == '\x0c'

/-- Python str.strip with no argument: remove leading and trailing whitespace. -/
def pyStrip (s : List Char) : List Char :=
  ((s.dropWhile isPySpace).reverse.dropWhile isPySpace).reverse

/-- Whether the first list occurs at the very start of the second list. -/
def leadsList : List Char → List Char → Bool
  | [], _ => true
  | _ :: _, [] => false
  | a :: as, b :: bs => a == b && leadsList as bs

/-- Index of the first occurrence of a character, if any. -/
def firstIdx (c : Char) : List Char → Option Nat
  | [] => none
  | x :: rest => if x == c then some 0 else (firstIdx c rest).map (fun k => k + 1)

/-- Index of the first occurrence of a pattern as a contiguous substring,
if any.  Models the Python str.find of a multi-character needle. -/
def findPatIdx (pat : List Char) : List Char → Option Nat
  | [] => if pat.isEmpty then some 0 else none
  | l@(_ :: rest) =>
    if leadsList pat l then some 0 else (findPatIdx pat rest).map (fun k => k + 1)

/-- Python substring containment, the binary in operator on str. -/
def containsSub (pat s : List Char) : Bool :=
  (findPatIdx pat s).isSome

/-- Python str.rfind of a single character: index of the last occurrence,
or -1 when the character does not occur. -/
def rfindC (c : Char) : List Char → Int
  | [] => -1
  | x :: rest =>
    let r := rfindC c rest
    if r != -1 then 1 + r
    else if x == c then 0 else -1

/-- Python s.find of a single character starting at a given index:
first index at or after start holding the character, or -1. -/
def findCFrom (c : Char) (start : Nat) (s : List Char) : Int :=
  match firstIdx c (s.drop start) with
  | some k => ((start + k : Nat) : Int)
  | none => -1

/-! ### HTML tag stripping: the regex sub removing tags of the form
open-angle, one or more non-close-angle characters, close-angle. -/

/-- Scan forward to the first close-angle character, returning the
remainder after it. -/
def scanClose : List Char → Option (List Char)
  | [] => none
  | c :: rest => if c == '>' then some rest else scanClose rest

/-- Given the characters after an open-angle, return the remainder after a
complete tag, i.e. after the first close-angle preceded by at least one
non-close-angle character.  none when no such tag starts here. -/
def tagEnd : List Char → Option (List Char)
  | [] => none
  | c :: rest => if c == '>' then none else scanClose rest

/-- Fueled left-to-right removal of complete tags, mirroring the
regex substitution in the source.  Fuel at least the length of the
input is always sufficient since every step consumes a character. -/
def stripTagsF : Nat → List Char → List Char
  | 0, s => s
  | _ + 1, [] => []
  | fuel + 1, c :: rest =>
    if c == '<' then
      match tagEnd rest with
      | some after => stripTagsF fuel after
      | none => c :: stripTagsF fuel rest
    else c :: stripTagsF fuel rest

/-- Remove every complete HTML tag, as the regex substitution does. -/
def stripTags (s : List Char) : List Char :=
  stripTagsF s.length s

/-! ### Constants taken from the source -/

/-- The marker token preceding a course id inside a course URL. -/
def idPat : List Char := "id=PkId\x7bkey=".data

/-- Substring of the post-login home URL used as the success marker. -/
def homeMarker : List Char := "portal/execute/tabs/tabAction".data

/-- Localized in-progress status phrase (Chinese). -/
def zhProgress : List Char := "正在登录".data

/-- Localized in-progress status phrase (English). -/
def enProgress : List Char := "Logging In".data

/-- Fixed message returned on a login timeout. -/
def timeoutMsg : List Char := "登录超时，请检查网络连接".data

/-- Fixed prefix of the message returned on a browser error. -/
def browserErrPrefix : List Char := "浏览器错误: ".data

/-- Fixed prefix of the message returned on an unexpected error. -/
def unknownErrPrefix : List Char := "未知错误: ".data

/-! ### Course list extraction -/

/-- One anchor inside the course list container: its rendered text and
its href attribute, which may be absent. -/
structure Link where
  text : List Char
  href : Option (List Char)
deriving DecidableEq

/-- The name, id, url triple emitted per course. -/
structure CourseRecord where
  name : List Char
  id : List Char
  url : List Char
deriving DecidableEq

/-- Python truthiness of a string: nonempty. -/
def truthyStr (s : List Char) : Bool := !s.isEmpty

/-- Python truthiness of an optional string: present and nonempty. -/
def truthyOptStr : Option (List Char) → Bool
  | none => false
  | some s => !s.isEmpty

/-- Name derivation from the stripped link text: substring after the
last colon, ASCII or full-width, up to the first ASCII open parenthesis
found from there, stripped. -/
def nameFromRaw (raw : List Char) : List Char :=
  let colonPos : Int := max (rfindC ':' raw) (rfindC '：' raw)
  let start : Nat := if colonPos != -1 then (colonPos + 1).toNat else 0
  let parenPos : Int := findCFrom '(' start raw
  let stop : Nat := if parenPos != -1 then parenPos.toNat else raw.length
  pyStrip ((raw.drop start).take (stop - start))

/-- Course id derivation from the href: when the href is truthy and
contains the id marker token, the substring from just after the token up
to the next comma; none when the comma is missing or the token absent. -/
def courseIdOf (href : Option (List Char)) : Option (List Char) :=
  match href with
  | none => none
  | some url =>
    if truthyStr url && containsSub idPat url then
      let start := (findPatIdx idPat url).getD 0 + idPat.length
      match firstIdx ',' (url.drop start) with
      | some k => some ((url.drop start).take k)
      | none => none
    else none

/-- Processing of one link: derive name and id, and emit a record when
name, id and href are all truthy.  The stored url is the href resolved
against the current page url by the externally supplied join function. -/
def processLink (join : List Char → List Char → List Char)
    (currentUrl : List Char) (link : Link) : Option CourseRecord :=
  let raw := pyStrip link.text
  let name := nameFromRaw raw
  let courseId := courseIdOf link.href
  if truthyStr name && truthyOptStr courseId && truthyOptStr link.href then
    some ⟨name, courseId.getD [], join currentUrl (link.href.getD [])⟩
  else none

/-- The extraction pass over every link of the course list container. -/
def extractCourses (join : List Char → List Char → List Char)
    (currentUrl : List Char) (links : List Link) : List CourseRecord :=
  links.filterMap (processLink join currentUrl)

/-! ### The outcome race -/

/-- The values one poll iteration observes from the driver: the current
url, whether the status element exists and is displayed, and its
innerHTML attribute, which may be absent. -/
structure PollState where
  currentUrl : List Char
  msgPresent : Bool
  msgDisplayed : Bool
  msgInnerHtml : Option (List Char)
deriving DecidableEq

/-- Cleaned status text: tags stripped, then whitespace stripped. -/
def cleanText (html : List Char) : List Char :=
  pyStrip (stripTags html)

/-- The in-loop terminal-error test on the cleaned text: nonempty and
containing neither in-progress phrase.  The final redundant emptiness
test of the source is kept. -/
def isErrText (clean : List Char) : Bool :=
  truthyStr clean && !containsSub zhProgress clean
    && !containsSub enProgress clean && !(clean == [])

/-- In-loop error detection: the status element must exist and be
displayed, and its cleaned text must pass the terminal-error test. -/
def errCheck (s : PollState) : Option (List Char) :=
  if s.msgPresent && s.msgDisplayed then
    let clean := cleanText (s.msgInnerHtml.getD [])
    if isErrText clean then some clean else none
  else none

/-- The after-timeout terminal-error test, written in the source without
the redundant emptiness conjunct. -/
def finalErrText (clean : List Char) : Bool :=
  truthyStr clean && !containsSub zhProgress clean && !containsSub enProgress clean

/-- Last error check performed after the polling loop times out. -/
def finalErrCheck (s : PollState) : Option (List Char) :=
  if s.msgPresent && s.msgDisplayed then
    let clean := cleanText (s.msgInnerHtml.getD [])
    if finalErrText clean then some clean else none
  else none

/-- Resolution of the outcome race. -/
inductive WaitOutcome where
  | success
  | authError (msg : List Char)
  | timeoutW
deriving DecidableEq

/-- One iteration of the polling loop: the success marker is tested on
the current url first; only when it is absent is the error element
consulted.  none means the iteration resolves nothing. -/
def waitIter (s : PollState) : Option WaitOutcome :=
  if containsSub homeMarker s.currentUrl then some .success
  else
    match errCheck s with
    | some m => some (.authError m)
    | none => none

/-- The polling loop over the observed iteration states, followed by the
final error check on the state observed after the deadline. -/
def waitForHome (trace : List PollState) (finalState : PollState) : WaitOutcome :=
  match trace with
  | [] =>
    match finalErrCheck finalState with
    | some m => .authError m
    | none => .timeoutW
  | s :: rest =>
    match waitIter s with
    | some o => o
    | none => waitForHome rest finalState

/-! ### Session materialization -/

/-- One cookie record read from the driver, every field optional as in
the Python dict. -/
structure CookieRec where
  name : Option (List Char)
  value : Option (List Char)
  domain : Option (List Char)
  path : Option (List Char)
  secure : Option Bool
  expiry : Option Int
deriving DecidableEq

/-- One cookie entry of the resulting requests session. -/
structure SessionCookie where
  name : List Char
  value : List Char
  domain : Option (List Char)
  path : List Char
  secure : Bool
  expires : Option Int
deriving DecidableEq

/-- The materialized session: default headers carry the user agent, plus
the cookie store. -/
structure SessionData where
  userAgent : List Char
  cookies : List SessionCookie
deriving DecidableEq

/-- Transfer of one driver cookie: requires the name and value keys,
defaults the path to a single slash and the secure flag to false. -/
def setCookieEntry (c : CookieRec) : Option SessionCookie :=
  if c.name.isSome && c.value.isSome then
    some ⟨c.name.getD [], c.value.getD [], c.domain,
          c.path.getD "/".data, c.secure.getD false, c.expiry⟩
  else none

/-- The session creation step: copy the user agent and every complete
cookie record. -/
def createSession (userAgent : List Char) (cookies : List CookieRec) : SessionData :=
  { userAgent := userAgent, cookies := cookies.filterMap setCookieEntry }

/-! ### The login entry point -/

/-- The exceptions the login handler distinguishes, in the order of its
clauses: the explicit login error, the timeout, the browser error, and
any other exception. -/
inductive StepExc where
  | loginErr (msg : List Char)
  | timeoutE
  | webDriverE (msg : List Char)
  | otherE (msg : List Char)
deriving DecidableEq

/-- The message each handler clause returns to the caller. -/
def excMsg : StepExc → List Char
  | .loginErr m => m
  | .timeoutE => timeoutMsg
  | .webDriverE m => browserErrPrefix ++ m.take 100
  | .otherE m => unknownErrPrefix ++ m.take 100

/-- The triple a login call returns. -/
structure LoginRet where
  session : Option SessionData
  courses : List CourseRecord
  errMsg : Option (List Char)
deriving DecidableEq

/-- Every handler clause returns an absent session, an empty course
list, and its message. -/
def handleExc (e : StepExc) : LoginRet :=
  ⟨none, [], some (excMsg e)⟩

/-- The environment a login call runs against: whether a display window
was supplied, which exception each driver-facing step raises if any, the
poll states the outcome race observes, and the raw data the extraction
and session steps read. -/
structure LoginEnv where
  windowPresent : Bool
  navExc : Option StepExc
  performExc : Option StepExc
  trace : List PollState
  finalState : PollState
  containerFound : Bool
  links : List Link
  pageUrl : List Char
  join : List Char → List Char → List Char
  createExc : Option StepExc
  userAgent : List Char
  cookieRecs : List CookieRec

/-- The body of the login call: navigation, credential submission, the
outcome race, then extraction and session creation.  The boolean records
whether the in-loop window restore on the success path ran. -/
def loginBody (env : LoginEnv) : LoginRet × Bool :=
  match env.navExc with
  | some e => (handleExc e, false)
  | none =>
    match env.performExc with
    | some e => (handleExc e, false)
    | none =>
      match waitForHome env.trace env.finalState with
      | .authError m => (handleExc (.loginErr m), false)
      | .timeoutW => (handleExc .timeoutE, false)
      | .success =>
        match env.createExc with
        | some e => (handleExc e, true)
        | none =>
          (⟨some (createSession env.userAgent env.cookieRecs),
            (if env.containerFound then extractCourses env.join env.pageUrl env.links else []),
            none⟩, true)

/-- The login call together with the number of times the display window
show operation is invoked: once inside the wait loop on the success path
when a window is present, and once in the finalizer when a window is
present. -/
def login (env : LoginEnv) : LoginRet × Nat :=
  ((loginBody env).1,
    (if env.windowPresent && (loginBody env).2 then 1 else 0)
      + (if env.windowPresent then 1 else 0))

/-- Whether the call reached the post-login home: no exception before
the race, and the race resolved to success. -/
def reachedHome (env : LoginEnv) : Bool :=
  env.navExc.isNone && env.performExc.isNone
    && (match waitForHome env.trace env.finalState with
        | .success => true
        | _ => false)

/-! ### Definitions following the wording of the spec, for comparison -/

/-- Modelled from the spec wording for the colon-free case: the name is
the whole text up to the first ASCII open parenthesis, or the whole text
when there is none. -/
def upToFirstParen (raw : List Char) : List Char :=
  match firstIdx '(' raw with
  | some k => raw.take k
  | none => raw

/-- Whether the cleaned status text of a poll state contains one of the
allow-listed in-progress phrases. -/
def progressish (s : PollState) : Bool :=
  containsSub zhProgress (cleanText (s.msgInnerHtml.getD []))
    || containsSub enProgress (cleanText (s.msgInnerHtml.getD []))

/-! ### Concrete states and environments used in the claim analyses -/

/-- A poll state showing the success marker in the url and at the same
time a displayed terminal error message. -/
def cxSuccessState : PollState :=
  ⟨homeMarker, true, true, some "用户名或密码错误".data⟩

/-- A poll state whose url carries the success marker and that shows no
status message. -/
def wMarkerState : PollState := ⟨homeMarker, false, false, none⟩

/-- A poll state showing only the localized in-progress phrase. -/
def wProgState : PollState := ⟨[], true, true, some "正在登录...".data⟩

/-- A poll state showing a terminal error message. -/
def wErrState : PollState := ⟨[], true, true, some "密码错误".data⟩

/-- A poll state observing nothing at all. -/
def idleState : PollState := ⟨[], false, false, none⟩

/-- A trivial url join function for concrete runs. -/
def joinRight : List Char → List Char → List Char := fun _ r => r

/-- A run with a supplied window in which the race resolves to success
on the first poll. -/
def cxShowEnv : LoginEnv :=
  ⟨true, none, none, [wMarkerState], idleState, false, [], [], joinRight, none, [], []⟩

/-- A status text of 150 characters. -/
def cxLongMsg : List Char := List.replicate 150 'x'

/-- A run in which the status element shows the 150 character text. -/
def cxLongEnv : LoginEnv :=
  ⟨false, none, none, [⟨[], true, true, some cxLongMsg⟩], idleState,
   false, [], [], joinRight, none, [], []⟩

/-- A run in which navigation raises the explicit login error. -/
def envAuthFail : LoginEnv :=
  ⟨false, some (.loginErr "用户名或密码错误".data), none, [], idleState,
   false, [], [], joinRight, none, [], []⟩

/-- A course url carrying the id marker token followed by a comma. -/
def wIdUrl : List Char :=
  "http://x?".data ++ idPat ++ "_123_1".data ++ ',' :: "type=C".data

/-- A course url carrying the id marker token with no later comma. -/
def wNoCommaUrl : List Char := "http://x?".data ++ idPat ++ "_123_1".data

/-! ### Helper lemmas about the string primitives -/

theorem rfindC_neg (c : Char) (s : List Char) (h : c ∉ s) : rfindC c s = -1 := by
  induction s with
  | nil => rfl
  | cons x t ih =>
    simp only [List.mem_cons, not_or] at h
    simp [rfindC, ih h.2, Ne.symm h.1]

theorem rfindC_lt (c : Char) (s : List Char) : rfindC c s < (s.length : Int) := by
  induction s with
  | nil => norm_num [rfindC]
  | cons x t ih =>
    simp only [rfindC, List.length_cons]
    by_cases hr : rfindC c t = -1
    · rw [hr]
      simp only [bne_self_eq_false, Bool.false_eq_true, if_false]
      split <;> push_cast <;> omega
    · have hb : (rfindC c t != -1) = true := by simpa [bne_iff_ne] using hr
      rw [hb]
      simp only [if_true]
      push_cast
      omega

theorem rfindC_append_not_mem (c : Char) (as bs : List Char) (h : c ∉ bs) :
    rfindC c (as ++ bs) = rfindC c as := by
  induction as with
  | nil => simp [rfindC_neg c bs h, rfindC]
  | cons x t ih => simp only [List.cons_append, rfindC, List.append_eq, ih]

theorem rfindC_append_self (c : Char) (pre rest : List Char) (h : c ∉ rest) :
    rfindC c (pre ++ c :: rest) = (pre.length : Int) := by
  induction pre with
  | nil =>
    simp [rfindC, rfindC_neg c rest h]
  | cons x t ih =>
    simp only [List.cons_append, rfindC, List.append_eq, ih, List.length_cons]
    have hb : ((t.length : Int) != -1) = true := by
      simp only [bne_iff_ne, ne_eq]
      omega
    rw [hb]
    simp only [if_true]
    push_cast
    omega

theorem firstIdx_not_mem (c : Char) (s : List Char) (h : c ∉ s) : firstIdx c s = none := by
  induction s with
  | nil => rfl
  | cons x t ih =>
    simp only [List.mem_cons, not_or] at h
    simp [firstIdx, Ne.symm h.1, ih h.2]

theorem firstIdx_append_self (c : Char) (as bs : List Char) (h : c ∉ as) :
    firstIdx c (as ++ c :: bs) = some as.length := by
  induction as with
  | nil => simp [firstIdx]
  | cons x t ih =>
    simp only [List.mem_cons, not_or] at h
    simp [firstIdx, Ne.symm h.1, ih h.2]

theorem drop_len_cons (pre : List Char) (c : Char) (rest : List Char) :
    (pre ++ c :: rest).drop (pre.length + 1) = rest := by
  induction pre with
  | nil => rfl
  | cons x t ih => simp [ih]

theorem take_len_append (as bs : List Char) : (as ++ bs).take as.length = as := by
  induction as with
  | nil => rfl
  | cons x t ih => simp [ih]

theorem drop_len_append (as bs : List Char) : (as ++ bs).drop as.length = bs := by
  induction as with
  | nil => rfl
  | cons x t ih => simp [ih]

theorem not_mem_append_cons {c d : Char} {nm extra : List Char}
    (h1 : c ∉ nm) (h2 : c ≠ d) (h3 : c ∉ extra) : c ∉ nm ++ d :: extra := by
  intro hmem
  rcases List.mem_append.1 hmem with h | h
  · exact h1 h
  · rcases List.mem_cons.1 h with h | h
    · exact h2 h
    · exact h3 h

theorem colonMax_decomp (pre rest : List Char) (c : Char)
    (hc : c = ':' ∨ c = '：') (h1 : ':' ∉ rest) (h2 : '：' ∉ rest) :
    max (rfindC ':' (pre ++ c :: rest)) (rfindC '：' (pre ++ c :: rest))
      = (pre.length : Int) := by
  rcases hc with rfl | rfl
  · rw [rfindC_append_self ':' pre rest h1]
    have hnot : '：' ∉ ':' :: rest := by
      intro hm
      rcases List.mem_cons.1 hm with h | h
      · exact absurd h (by decide)
      · exact h2 h
    rw [rfindC_append_not_mem '：' pre _ hnot]
    exact max_eq_left (le_of_lt (rfindC_lt '：' pre))
  · rw [rfindC_append_self '：' pre rest h2]
    have hnot : ':' ∉ '：' :: rest := by
      intro hm
      rcases List.mem_cons.1 hm with h | h
      · exact absurd h (by decide)
      · exact h1 h
    rw [rfindC_append_not_mem ':' pre _ hnot]
    exact max_eq_right (le_of_lt (rfindC_lt ':' pre))

/-! ### Lemmas about name derivation -/

theorem nameFromRaw_colon_paren (pre nm extra : List Char) (c : Char)
    (hc : c = ':' ∨ c = '：') (h1 : ':' ∉ nm) (h2 : '：' ∉ nm) (h3 : '(' ∉ nm)
    (h4 : ':' ∉ extra) (h5 : '：' ∉ extra) :
    nameFromRaw (pre ++ c :: (nm ++ '(' :: extra)) = pyStrip nm := by
  have hr1 : ':' ∉ nm ++ '(' :: extra := not_mem_append_cons h1 (by decide) h4
  have hr2 : '：' ∉ nm ++ '(' :: extra := not_mem_append_cons h2 (by decide) h5
  have hmax := colonMax_decomp pre (nm ++ '(' :: extra) c hc hr1 hr2
  simp only [nameFromRaw]
  rw [hmax]
  have hb : (((pre.length : Int)) != -1) = true := by
    simp only [bne_iff_ne, ne_eq]
    omega
  rw [hb]
  simp only [if_true]
  have hst : ((pre.length : Int) + 1).toNat = pre.length + 1 := by omega
  rw [hst]
  have hdrop : (pre ++ c :: (nm ++ '(' :: extra)).drop (pre.length + 1)
      = nm ++ '(' :: extra := drop_len_cons pre c _
  simp only [findCFrom, hdrop, firstIdx_append_self '(' nm extra h3]
  have hb2 : (((pre.length + 1 + nm.length : Nat) : Int) != -1) = true := by
    simp only [bne_iff_ne, ne_eq]
    omega
  rw [hb2]
  simp only [if_true]
  have hto : (((pre.length + 1 + nm.length : Nat) : Int)).toNat
      = pre.length + 1 + nm.length := by omega
  rw [hto]
  have harith : pre.length + 1 + nm.length - (pre.length + 1) = nm.length := by omega
  rw [harith, take_len_append nm ('(' :: extra)]

theorem nameFromRaw_colon_noparen (pre nm : List Char) (c : Char)
    (hc : c = ':' ∨ c = '：') (h1 : ':' ∉ nm) (h2 : '：' ∉ nm) (h3 : '(' ∉ nm) :
    nameFromRaw (pre ++ c :: nm) = pyStrip nm := by
  have hmax := colonMax_decomp pre nm c hc h1 h2
  simp only [nameFromRaw]
  rw [hmax]
  have hb : (((pre.length : Int)) != -1) = true := by
    simp only [bne_iff_ne, ne_eq]
    omega
  rw [hb]
  simp only [if_true]
  have hst : ((pre.length : Int) + 1).toNat = pre.length + 1 := by omega
  rw [hst]
  have hdrop : (pre ++ c :: nm).drop (pre.length + 1) = nm := drop_len_cons pre c nm
  simp only [findCFrom, hdrop, firstIdx_not_mem '(' nm h3]
  have hb3 : (((-1 : Int)) != -1) = false := by decide
  rw [hb3]
  simp only [Bool.false_eq_true, if_false]
  have hlen : (pre ++ c :: nm).length = pre.length + 1 + nm.length := by
    simp [List.length_append]
    omega
  rw [hlen]
  have harith : pre.length + 1 + nm.length - (pre.length + 1) = nm.length := by omega
  rw [harith, List.take_length]

theorem nameFromRaw_no_colon (raw : List Char) (h1 : ':' ∉ raw) (h2 : '：' ∉ raw) :
    nameFromRaw raw = pyStrip (upToFirstParen raw) := by
  simp only [nameFromRaw, upToFirstParen]
  rw [rfindC_neg ':' raw h1, rfindC_neg '：' raw h2]
  have hmax : max (-1 : Int) (-1) = -1 := by decide
  rw [hmax]
  have hb : (((-1 : Int)) != -1) = false := by decide
  rw [hb]
  simp only [Bool.false_eq_true, if_false, findCFrom, List.drop_zero]
  cases hf : firstIdx '(' raw with
  | none =>
    simp only [hb, Bool.false_eq_true, if_false]
    rw [Nat.sub_zero, List.take_length]
  | some k =>
    have hb2 : (((0 + k : Nat) : Int) != -1) = true := by
      simp only [bne_iff_ne, ne_eq]
      omega
    rw [hb2]
    simp only [if_true]
    have hto : (((0 + k : Nat) : Int)).toNat = k := by omega
    rw [hto, Nat.sub_zero]

/-! ### Lemmas about course id derivation and record emission -/

theorem courseIdOf_decomp (u a v b : List Char)
    (hu : u = a ++ idPat ++ v ++ ',' :: b)
    (hfind : findPatIdx idPat u = some a.length) (hv : ',' ∉ v) :
    courseIdOf (some u) = some v := by
  have hne : u ≠ [] := by
    rw [hu]
    simp [idPat]
  have htr : truthyStr u = true := by
    simp [truthyStr, List.isEmpty_iff, hne]
  have hcs : containsSub idPat u = true := by
    simp [containsSub, hfind]
  simp only [courseIdOf, htr, hcs, Bool.and_self, if_true, hfind, Option.getD_some]
  have hdrop : u.drop (a.length + idPat.length) = v ++ ',' :: b := by
    rw [hu, List.append_assoc (a ++ idPat) v (',' :: b), ← List.length_append a idPat]
    exact drop_len_append (a ++ idPat) (v ++ ',' :: b)
  rw [hdrop, firstIdx_append_self ',' v b hv]
  show some (List.take v.length (v ++ ',' :: b)) = some v
  rw [take_len_append v (',' :: b)]

theorem courseIdOf_no_comma (u a v : List Char)
    (hu : u = a ++ idPat ++ v)
    (hfind : findPatIdx idPat u = some a.length) (hv : ',' ∉ v) :
    courseIdOf (some u) = none := by
  have hne : u ≠ [] := by
    rw [hu]
    simp [idPat]
  have htr : truthyStr u = true := by
    simp [truthyStr, List.isEmpty_iff, hne]
  have hcs : containsSub idPat u = true := by
    simp [containsSub, hfind]
  simp only [courseIdOf, htr, hcs, Bool.and_self, if_true, hfind, Option.getD_some]
  have hdrop : u.drop (a.length + idPat.length) = v := by
    rw [hu, List.append_assoc a idPat v, ← List.length_append a idPat,
      ← List.append_assoc a idPat v]
    exact drop_len_append (a ++ idPat) v
  rw [hdrop, firstIdx_not_mem ',' v hv]

theorem processLink_no_token (join : List Char → List Char → List Char)
    (cur : List Char) (l : Link) (u : List Char)
    (hhref : l.href = some u) (hcs : containsSub idPat u = false) :
    processLink join cur l = none := by
  have hid : courseIdOf l.href = none := by
    simp [courseIdOf, hhref, hcs]
  simp [processLink, hid, truthyOptStr]

theorem processLink_some_emit (join : List Char → List Char → List Char)
    (cur : List Char) (l : Link) (i u : List Char)
    (hname : truthyStr (nameFromRaw (pyStrip l.text)) = true)
    (hid : courseIdOf l.href = some i) (hi : i ≠ [])
    (hu : l.href = some u) (hune : u ≠ []) :
    processLink join cur l = some ⟨nameFromRaw (pyStrip l.text), i, join cur u⟩ := by
  rw [hu] at hid
  have h1 : truthyOptStr (some i) = true := by
    simp [truthyOptStr, List.isEmpty_iff, hi]
  have h2 : truthyOptStr (some u) = true := by
    simp [truthyOptStr, List.isEmpty_iff, hune]
  simp [processLink, hname, h1, h2, hid, hu]

theorem processLink_eq_some (join : List Char → List Char → List Char)
    (cur : List Char) (l : Link) (r : CourseRecord)
    (h : processLink join cur l = some r) :
    r.name = nameFromRaw (pyStrip l.text) ∧ r.name ≠ []
    ∧ courseIdOf l.href = some r.id ∧ r.id ≠ []
    ∧ ∃ u, l.href = some u ∧ u ≠ [] ∧ r.url = join cur u := by
  simp only [processLink] at h
  split at h
  case isTrue hcond =>
    injection h with h
    subst h
    simp only [Bool.and_eq_true] at hcond
    obtain ⟨⟨hname, hcid⟩, hhref⟩ := hcond
    cases hid : courseIdOf l.href with
    | none => rw [hid] at hcid; exact absurd hcid (by simp [truthyOptStr])
    | some i =>
      cases hh : l.href with
      | none => rw [hh] at hhref; exact absurd hhref (by simp [truthyOptStr])
      | some u =>
        rw [hid] at hcid
        rw [hh] at hhref
        simp only [truthyOptStr, Bool.not_eq_true'] at hcid hhref
        refine ⟨rfl, ?_, ?_, ?_, u, rfl, ?_, ?_⟩
        · simpa [truthyStr, List.isEmpty_iff] using hname
        · simp [hid]
        · simpa [List.isEmpty_iff] using hcid
        · simpa [List.isEmpty_iff] using hhref
        · simp [hh]
  case isFalse => cases h

/-! ### Lemmas about the outcome race -/

theorem errCheck_progress (s : PollState) (h : progressish s = true) :
    errCheck s = none := by
  simp only [progressish, Bool.or_eq_true] at h
  simp only [errCheck]
  split
  · rcases h with h | h <;> simp [isErrText, h]
  · rfl

theorem finalErrCheck_progress (s : PollState) (h : progressish s = true) :
    finalErrCheck s = none := by
  simp only [progressish, Bool.or_eq_true] at h
  simp only [finalErrCheck]
  split
  · rcases h with h | h <;> simp [finalErrText, h]
  · rfl

theorem errCheck_eq_some (s : PollState) (m : List Char) (h : errCheck s = some m) :
    s.msgPresent = true ∧ s.msgDisplayed = true
    ∧ m = cleanText (s.msgInnerHtml.getD []) ∧ m ≠ []
    ∧ containsSub zhProgress m = false ∧ containsSub enProgress m = false := by
  simp only [errCheck] at h
  split at h
  case isTrue hpd =>
    split at h
    case isTrue ht =>
      injection h with h
      subst h
      simp only [Bool.and_eq_true] at hpd
      simp only [isErrText, truthyStr, Bool.and_eq_true, Bool.not_eq_true'] at ht
      obtain ⟨⟨⟨he, hzh⟩, hen⟩, _⟩ := ht
      exact ⟨hpd.1, hpd.2, rfl, by simpa [List.isEmpty_iff] using he, hzh, hen⟩
    case isFalse => cases h
  case isFalse => cases h

theorem finalErrCheck_eq_some (s : PollState) (m : List Char)
    (h : finalErrCheck s = some m) :
    s.msgPresent = true ∧ s.msgDisplayed = true
    ∧ m = cleanText (s.msgInnerHtml.getD []) ∧ m ≠ []
    ∧ containsSub zhProgress m = false ∧ containsSub enProgress m = false := by
  simp only [finalErrCheck] at h
  split at h
  case isTrue hpd =>
    split at h
    case isTrue ht =>
      injection h with h
      subst h
      simp only [Bool.and_eq_true] at hpd
      simp only [finalErrText, truthyStr, Bool.and_eq_true, Bool.not_eq_true'] at ht
      obtain ⟨⟨he, hzh⟩, hen⟩ := ht
      exact ⟨hpd.1, hpd.2, rfl, by simpa [List.isEmpty_iff] using he, hzh, hen⟩
    case isFalse => cases h
  case isFalse => cases h

theorem waitForHome_no_auth_of_progress (trace : List PollState)
    (finalState : PollState) (h : ∀ s ∈ trace, progressish s = true)
    (hf : progressish finalState = true) (m : List Char) :
    waitForHome trace finalState ≠ .authError m := by
  induction trace with
  | nil =>
    simp only [waitForHome, finalErrCheck_progress finalState hf]
    intro hcon
    cases hcon
  | cons s rest ih =>
    have hec := errCheck_progress s (h s (by simp))
    by_cases hurl : containsSub homeMarker s.currentUrl = true
    · simp only [waitForHome, waitIter, hurl, if_true]
      intro hcon
      cases hcon
    · have hurl2 : containsSub homeMarker s.currentUrl = false := by
        simpa using hurl
      simp only [waitForHome, waitIter, hurl2, hec, Bool.false_eq_true, if_false]
      exact ih (fun t ht => h t (by simp [ht]))

theorem waitForHome_auth_source (trace : List PollState) (finalState : PollState)
    (m : List Char) (h : waitForHome trace finalState = .authError m) :
    m ≠ [] ∧ containsSub zhProgress m = false ∧ containsSub enProgress m = false
    ∧ ∃ s, (s ∈ trace ∨ s = finalState) ∧ s.msgPresent = true
        ∧ s.msgDisplayed = true ∧ m = cleanText (s.msgInnerHtml.getD []) := by
  induction trace with
  | nil =>
    simp only [waitForHome] at h
    cases hfc : finalErrCheck finalState with
    | none => rw [hfc] at h; cases h
    | some m2 =>
      rw [hfc] at h
      injection h with h
      subst h
      obtain ⟨hp, hd, hm, hne, hzh, hen⟩ := finalErrCheck_eq_some finalState m2 hfc
      exact ⟨hne, hzh, hen, finalState, Or.inr rfl, hp, hd, hm⟩
  | cons s rest ih =>
    simp only [waitForHome] at h
    cases hwi : waitIter s with
    | some o =>
      rw [hwi] at h
      simp only at h
      subst h
      simp only [waitIter] at hwi
      split at hwi
      case isTrue => simp at hwi
      case isFalse =>
        cases hec : errCheck s with
        | none => rw [hec] at hwi; cases hwi
        | some m2 =>
          rw [hec] at hwi
          have hm2 : m2 = m := by
            injection hwi with hwi
            injection hwi
          subst hm2
          obtain ⟨hp, hd, hm, hne, hzh, hen⟩ := errCheck_eq_some s m2 hec
          exact ⟨hne, hzh, hen, s, Or.inl (by simp), hp, hd, hm⟩
    | none =>
      rw [hwi] at h
      obtain ⟨hne, hzh, hen, t, hmem, hp, hd, hm⟩ := ih h
      refine ⟨hne, hzh, hen, t, ?_, hp, hd, hm⟩
      rcases hmem with hmem | hmem
      · exact Or.inl (by simp [hmem])
      · exact Or.inr hmem

/-! ### Lemmas about the login entry point -/

theorem handleExc_parts (e : StepExc) :
    (handleExc e).session = none ∧ (handleExc e).courses = []
    ∧ (handleExc e).errMsg = some (excMsg e) :=
  ⟨rfl, rfl, rfl⟩

theorem loginBody_snd (env : LoginEnv) : (loginBody env).2 = reachedHome env := by
  simp only [loginBody, reachedHome]
  cases env.navExc with
  | some e => simp
  | none =>
    cases env.performExc with
    | some e => simp
    | none =>
      cases waitForHome env.trace env.finalState with
      | authError m => simp
      | timeoutW => simp
      | success =>
        cases env.createExc with
        | some e => simp
        | none => simp

theorem loginBody_cases (env : LoginEnv) :
    (∃ e, (loginBody env).1 = handleExc e)
    ∨ (loginBody env).1
        = ⟨some (createSession env.userAgent env.cookieRecs),
           (if env.containerFound then
              extractCourses env.join env.pageUrl env.links
            else []),
           none⟩ := by
  simp only [loginBody]
  cases env.navExc with
  | some e => exact Or.inl ⟨e, rfl⟩
  | none =>
    cases env.performExc with
    | some e => exact Or.inl ⟨e, rfl⟩
    | none =>
      cases waitForHome env.trace env.finalState with
      | authError m => exact Or.inl ⟨.loginErr m, rfl⟩
      | timeoutW => exact Or.inl ⟨.timeoutE, rfl⟩
      | success =>
        cases env.createExc with
        | some e => exact Or.inl ⟨e, rfl⟩
        | none => exact Or.inr rfl

/-! ### Claim analyses -/

/-- Claim C1: every login call resolves to exactly one terminal outcome:
it never returns both a session and an error message and never returns
neither; on any failure the session is absent and the course list is
empty; on success the error message is absent. -/
theorem login_outcome_exclusive (env : LoginEnv) :
    ((login env).1.session.isSome && (login env).1.errMsg.isSome) = false
    ∧ ((login env).1.session.isSome || (login env).1.errMsg.isSome) = true
    ∧ ((login env).1.errMsg.isSome = true →
        (login env).1.session = none ∧ (login env).1.courses = [])
    ∧ ((login env).1.session.isSome = true → (login env).1.errMsg = none) := by
  have hb : (login env).1 = (loginBody env).1 := rfl
  rcases loginBody_cases env with ⟨e, he⟩ | he <;> rw [hb, he]
  · simp [handleExc]
  · simp

/-- Witness instantiating the failure clauses of the C1 theorem. -/
theorem login_outcome_exclusive_witness :
    (login envAuthFail).1.session = none ∧ (login envAuthFail).1.courses = [] :=
  (login_outcome_exclusive envAuthFail).2.2.1 (by decide)

/-- Counterexample for claim C2: in a poll state where the success
marker and a visible terminal error message are both present, the race
resolves to Success, not AuthError. -/
theorem race_both_markers_success_cx :
    errCheck cxSuccessState = some "用户名或密码错误".data
    ∧ containsSub homeMarker cxSuccessState.currentUrl = true
    ∧ waitForHome [cxSuccessState] cxSuccessState = .success := by decide

/-- Claim C2 as amended: each iteration tests the success marker first,
so any poll state whose url carries the marker resolves the race to
Success regardless of the status element. -/
theorem race_success_checked_first (s : PollState) (trace : List PollState)
    (finalState : PollState) (h : containsSub homeMarker s.currentUrl = true) :
    waitForHome (s :: trace) finalState = .success := by
  simp [waitForHome, waitIter, h]

/-- Witness instantiating the amended C2 theorem. -/
theorem race_success_checked_first_witness :
    waitForHome [wMarkerState] wMarkerState = .success :=
  race_success_checked_first wMarkerState [] wMarkerState (by decide)

/-- Counterexample for claim C3: on a successful run with a supplied
window the show operation is invoked twice, not exactly once. -/
theorem window_show_twice_on_success_cx :
    cxShowEnv.windowPresent = true
    ∧ (login cxShowEnv).1.errMsg = none
    ∧ (login cxShowEnv).2 = 2 := by decide

/-- Claim C3 as amended: with a supplied window the show operation runs
at least once on every exit path; it runs twice when the race resolved
to success, once from the wait loop and once from the finalizer, and
exactly once otherwise. -/
theorem window_show_at_least_once (env : LoginEnv) (h : env.windowPresent = true) :
    1 ≤ (login env).2 ∧ (login env).2 = (if reachedHome env then 2 else 1) := by
  have hb := loginBody_snd env
  simp only [login, h, Bool.true_and, hb]
  cases hrh : reachedHome env <;> simp [hrh]

/-- Witness instantiating the amended C3 theorem. -/
theorem window_show_at_least_once_witness :
    1 ≤ (login cxShowEnv).2
    ∧ (login cxShowEnv).2 = (if reachedHome cxShowEnv then 2 else 1) :=
  window_show_at_least_once cxShowEnv rfl

/-- Counterexample for claim C4: a full-width parenthesis after the last
colon is not a cut point, so the derived name keeps it. -/
theorem fullwidth_paren_not_cut_cx :
    nameFromRaw "A：B（C）".data = "B（C）".data
    ∧ nameFromRaw "A：B（C）".data ≠ "B".data := by decide

/-- Claim C4 as amended: with the cut points taken as the last colon,
ASCII or full-width, and the first ASCII open parenthesis after it, the
derived name is the in-between text trimmed; with no ASCII parenthesis
after the colon, the name runs to the end of the text. -/
theorem name_extraction_ascii_paren :
    (∀ pre nm extra c, (c = ':' ∨ c = '：') → ':' ∉ nm → '：' ∉ nm → '(' ∉ nm →
        ':' ∉ extra → '：' ∉ extra →
        nameFromRaw (pre ++ c :: (nm ++ '(' :: extra)) = pyStrip nm)
    ∧ (∀ pre nm c, (c = ':' ∨ c = '：') → ':' ∉ nm → '：' ∉ nm → '(' ∉ nm →
        nameFromRaw (pre ++ c :: nm) = pyStrip nm) :=
  ⟨fun pre nm extra c hc h1 h2 h3 h4 h5 =>
      nameFromRaw_colon_paren pre nm extra c hc h1 h2 h3 h4 h5,
   fun pre nm c hc h1 h2 h3 => nameFromRaw_colon_noparen pre nm c hc h1 h2 h3⟩

/-- Witness instantiating both clauses of the amended C4 theorem. -/
theorem name_extraction_ascii_paren_witness :
    nameFromRaw ("A".data ++ ':' :: (" Math ".data ++ '(' :: "1)".data))
      = pyStrip " Math ".data
    ∧ nameFromRaw ("B".data ++ '：' :: "数学".data) = pyStrip "数学".data :=
  ⟨name_extraction_ascii_paren.1 "A".data " Math ".data "1)".data ':' (Or.inl rfl)
      (by decide) (by decide) (by decide) (by decide) (by decide),
   name_extraction_ascii_paren.2 "B".data "数学".data '：' (Or.inr rfl)
      (by decide) (by decide) (by decide)⟩

/-- Claim C5: the derived course id is the substring between the id
marker token and the next comma; a url without the token yields no
record; and an emitted record has nonempty name, id and url. -/
theorem course_id_extraction :
    (∀ u a v b, u = a ++ idPat ++ v ++ ',' :: b →
        findPatIdx idPat u = some a.length → ',' ∉ v →
        courseIdOf (some u) = some v)
    ∧ (∀ join cur l u, Link.href l = some u → containsSub idPat u = false →
        processLink join cur l = none)
    ∧ (∀ join cur l r, processLink join cur l = some r →
        r.name ≠ [] ∧ r.id ≠ [] ∧ courseIdOf l.href = some r.id
        ∧ ∃ u, l.href = some u ∧ u ≠ []) := by
  refine ⟨courseIdOf_decomp, processLink_no_token, ?_⟩
  intro join cur l r h
  obtain ⟨_, hn, hcid, hid, u, hu, hune, _⟩ := processLink_eq_some join cur l r h
  exact ⟨hn, hid, hcid, u, hu, hune⟩

/-- Witness instantiating the id-derivation clause of the C5 theorem. -/
theorem course_id_extraction_witness :
    courseIdOf (some wIdUrl) = some "_123_1".data :=
  course_id_extraction.1 wIdUrl "http://x?".data "_123_1".data "type=C".data
    rfl (by decide) (by decide)

set_option maxRecDepth 10000 in
/-- Counterexample for claim C6: a 150 character status text comes back
as a 150 character error message, beyond the 100 character truncation
the other branches apply. -/
theorem auth_error_untruncated_cx :
    (login cxLongEnv).1.errMsg = some cxLongMsg
    ∧ 100 < cxLongMsg.length := by decide

/-- Claim C6 as amended: the provider-reported error text is returned
verbatim with no truncation; only the browser-error and unexpected-error
messages are bounded, by their fixed prefix plus 100 characters. -/
theorem error_message_truncation_shape :
    (∀ env : LoginEnv, ∀ m, env.navExc = none → env.performExc = none →
        waitForHome env.trace env.finalState = .authError m →
        (login env).1.errMsg = some m)
    ∧ (∀ m, (excMsg (.webDriverE m)).length ≤ browserErrPrefix.length + 100
        ∧ (excMsg (.otherE m)).length ≤ unknownErrPrefix.length + 100) := by
  constructor
  · intro env m h1 h2 h3
    simp only [login, loginBody, h1, h2, h3]
    rfl
  · intro m
    refine ⟨?_, ?_⟩ <;>
      simp only [excMsg, List.length_append, List.length_take] <;> omega

set_option maxRecDepth 10000 in
/-- Witness instantiating the verbatim clause of the amended C6 theorem. -/
theorem error_message_truncation_shape_witness :
    (login cxLongEnv).1.errMsg = some cxLongMsg :=
  error_message_truncation_shape.1 cxLongEnv cxLongMsg rfl rfl (by decide)

/-- Claim C7: a status text containing an in-progress phrase never
resolves the race to AuthError, however long it persists; and an
AuthError payload always comes from a present, displayed status element
whose cleaned text is nonempty and free of both in-progress phrases. -/
theorem progress_phrase_never_auth_error :
    (∀ trace finalState m, (∀ s ∈ trace, progressish s = true) →
        progressish finalState = true →
        waitForHome trace finalState ≠ .authError m)
    ∧ (∀ trace finalState m, waitForHome trace finalState = .authError m →
        m ≠ [] ∧ containsSub zhProgress m = false
        ∧ containsSub enProgress m = false
        ∧ ∃ s, (s ∈ trace ∨ s = finalState) ∧ s.msgPresent = true
            ∧ s.msgDisplayed = true ∧ m = cleanText (s.msgInnerHtml.getD [])) :=
  ⟨fun trace finalState m h hf =>
      waitForHome_no_auth_of_progress trace finalState h hf m,
   fun trace finalState m h => waitForHome_auth_source trace finalState m h⟩

/-- Witness instantiating both clauses of the C7 theorem. -/
theorem progress_phrase_never_auth_error_witness :
    waitForHome [wProgState] wProgState ≠ .authError "密码错误".data
    ∧ ("密码错误".data ≠ ([] : List Char)
       ∧ containsSub zhProgress "密码错误".data = false
       ∧ containsSub enProgress "密码错误".data = false
       ∧ ∃ s, (s ∈ [wErrState] ∨ s = wErrState) ∧ s.msgPresent = true
           ∧ s.msgDisplayed = true
           ∧ "密码错误".data = cleanText (s.msgInnerHtml.getD [])) :=
  ⟨progress_phrase_never_auth_error.1 [wProgState] wProgState "密码错误".data
      (by decide) (by decide),
   progress_phrase_never_auth_error.2 [wErrState] wErrState "密码错误".data
      (by decide)⟩

/-- Claim C8: session materialization copies the user agent into the
default headers and copies exactly the cookie records carrying both a
name and a value, preserving domain, path, secure flag and expiry, so
the store holds at most as many entries as the handle had records. -/
theorem session_materialization (ua : List Char) (cs : List CookieRec) :
    (createSession ua cs).userAgent = ua
    ∧ (createSession ua cs).cookies.length ≤ cs.length
    ∧ (createSession ua cs).cookies
        = (cs.filter (fun c => c.name.isSome && c.value.isSome)).map
            (fun c => ⟨c.name.getD [], c.value.getD [], c.domain,
                       c.path.getD "/".data, c.secure.getD false, c.expiry⟩) := by
  have h3 : (createSession ua cs).cookies
      = (cs.filter (fun c => c.name.isSome && c.value.isSome)).map
          (fun c => (⟨c.name.getD [], c.value.getD [], c.domain,
                     c.path.getD "/".data, c.secure.getD false, c.expiry⟩
                     : SessionCookie)) := by
    simp only [createSession]
    induction cs with
    | nil => rfl
    | cons c rest ih =>
      by_cases hc : (c.name.isSome && c.value.isSome) = true
      · simp [List.filterMap_cons, List.filter_cons, setCookieEntry, hc, ih]
      · simp [List.filterMap_cons, List.filter_cons, setCookieEntry, hc, ih]
  refine ⟨rfl, ?_, h3⟩
  rw [h3, List.length_map]
  exact List.length_filter_le _ _

/-- Claim C9: a url containing the id marker token but no comma after
it yields no course id, and the link is dropped. -/
theorem id_prefix_no_comma_dropped (join : List Char → List Char → List Char)
    (cur : List Char) (l : Link) (u a v : List Char)
    (hhref : l.href = some u) (hu : u = a ++ idPat ++ v)
    (hfind : findPatIdx idPat u = some a.length) (hv : ',' ∉ v) :
    containsSub idPat u = true ∧ courseIdOf (some u) = none
    ∧ processLink join cur l = none := by
  have hcid := courseIdOf_no_comma u a v hu hfind hv
  refine ⟨by simp [containsSub, hfind], hcid, ?_⟩
  have hnone : courseIdOf l.href = none := by
    rw [hhref]
    exact hcid
  simp [processLink, hnone, truthyOptStr]

/-- Witness instantiating the C9 theorem. -/
theorem id_prefix_no_comma_dropped_witness :
    containsSub idPat wNoCommaUrl = true
    ∧ courseIdOf (some wNoCommaUrl) = none
    ∧ processLink joinRight [] ⟨"T:Name(x)".data, some wNoCommaUrl⟩ = none :=
  id_prefix_no_comma_dropped joinRight [] ⟨"T:Name(x)".data, some wNoCommaUrl⟩
    wNoCommaUrl "http://x?".data "_123_1".data rfl rfl (by decide) (by decide)

/-- Claim C10: on a link text containing no colon of either kind, the
derived name is the text up to the first ASCII open parenthesis, or the
whole text, trimmed; and a record is still emitted whenever the name,
the id and the url are all nonempty. -/
theorem no_colon_name_extraction :
    (∀ raw, ':' ∉ raw → '：' ∉ raw →
        nameFromRaw raw = pyStrip (upToFirstParen raw))
    ∧ (∀ join cur l i u, truthyStr (nameFromRaw (pyStrip l.text)) = true →
        courseIdOf l.href = some i → i ≠ [] → l.href = some u → u ≠ [] →
        processLink join cur l
          = some ⟨nameFromRaw (pyStrip l.text), i, join cur u⟩) :=
  ⟨nameFromRaw_no_colon, processLink_some_emit⟩

/-- Witness instantiating both clauses of the C10 theorem. -/
theorem no_colon_name_extraction_witness :
    nameFromRaw "Hello (World)".data = pyStrip (upToFirstParen "Hello (World)".data)
    ∧ processLink joinRight [] ⟨"Hello (World)".data, some wIdUrl⟩
        = some ⟨nameFromRaw (pyStrip "Hello (World)".data), "_123_1".data,
                joinRight [] wIdUrl⟩ :=
  ⟨no_colon_name_extraction.1 "Hello (World)".data (by decide) (by decide),
   no_colon_name_extraction.2 joinRight [] ⟨"Hello (World)".data, some wIdUrl⟩
      "_123_1".data wIdUrl (by decide) (by decide) (by decide) rfl (by decide)⟩

end PkuGet
